import Mathlib

/-!
# Verification of the squinter SquashFS reader against its specification

Shallow embedding of the squinter library (a read-only SquashFS accessor) in
Lean 4.  Rust machine integers are modelled as `Nat` with explicit `% 2^w`
wrapping where the source can overflow; fallible Rust operations returning
`io::Result` are modelled with `Except ErrKind`; Rust panics (`unwrap`,
`assert!`, index out of bounds) are modelled with a distinguished `POut.panic`
outcome.  Each definition is translated from the corresponding item in
`src/squinter/src/squashfs/`.
-/

namespace Squinter

/-- The `std::io::ErrorKind` values the library constructs
(`src/squinter/src/squashfs/*.rs`). -/
inductive ErrKind where
  | invalidData
  | invalidInput
  | unsupported
  | unexpectedEof
  | notFound
  | otherErr
  deriving DecidableEq, Repr

/-- Outcome of a Rust call that can also panic: `ok`, `Err(e)`, or a panic
(`unwrap` on `None`/`Err`, failed `assert!`, out-of-bounds index). -/
inductive POut (α : Type) where
  | ok (a : α)
  | err (e : ErrKind)
  | panic
  deriving DecidableEq, Repr

/-! ## Entry references (`metadata.rs`, `EntryReference`)

`EntryReference::new` packs a 48-bit metadata-block location and a 16-bit
intra-block offset into one `u64`: `val = (location << 16) | offset`.
Rust `<<` on `u64` discards shifted-out bits, so the value is reduced
`% 2^64`; the `u16` offset is zero-extended. -/

/-- `EntryReference { val: u64 }` (`metadata.rs:230`). `val` is a `u64`,
modelled as a `Nat` that the constructors keep below `2^64`. -/
structure EntryReference where
  val : Nat
  deriving DecidableEq, Repr

namespace EntryReference

/-- `EntryReference::new(location: u64, offset: u16)` (`metadata.rs:237`):
`val = (location << 16) | u64::from(offset)`. -/
def new (location : Nat) (offset : Nat) : EntryReference :=
  ⟨(location <<< 16) % 2 ^ 64 ||| offset⟩

/-- `EntryReference::location` (`metadata.rs:243`): `val >> 16`. -/
def location (e : EntryReference) : Nat :=
  e.val >>> 16

/-- `EntryReference::offset` (`metadata.rs:247`): `(val & 0xFFFF) as u16`. -/
def offset (e : EntryReference) : Nat :=
  e.val &&& 0xFFFF

end EntryReference

/-! ## `div_ceil!` and the `BasicFile` block-count computation (`metadata.rs`)

`div_ceil!(x, y)` expands to `($x + $y - 1) / $y`.  In `Inode::read`
(`metadata.rs:595`) it is applied to the `u32` values `file_size` and
`block_size`, so the intermediate sum `x + y` is computed in `u32`
arithmetic: in a release build it wraps modulo `2^32` (a debug build
panics on the overflow).  Wrapping `u32` addition and subtraction are
modelled explicitly. -/

/-- Wrapping `u32` addition. -/
def wadd32 (a b : Nat) : Nat := (a + b) % 2 ^ 32

/-- Wrapping `u32` subtraction (operands below `2^32`). -/
def wsub32 (a b : Nat) : Nat := (a + 2 ^ 32 - b) % 2 ^ 32

/-- `div_ceil!(x, y) = (x + y - 1) / y` over `u32` with release (wrapping)
arithmetic (`metadata.rs:17`). -/
def div_ceil (x y : Nat) : Nat := wsub32 (wadd32 x y) 1 / y

/-- Number of per-block size words read for a `BasicFile` inode
(`metadata.rs:600-604`): `div_ceil!(file_size, block_size)` when
`frag_index == u32::MAX`, else `file_size / block_size`. -/
def num_blocks (file_size frag_index block_size : Nat) : Nat :=
  if frag_index = 0xFFFFFFFF then div_ceil file_size block_size
  else file_size / block_size

/-! ## Byte streams

The backing store is a seekable byte stream (`Read + Seek`).  It is modelled
as a list of byte values together with a cursor; the `byteorder` primitives
`read_u16 / read_u32 / read_u64 (LittleEndian)` consume bytes at the cursor
and fail with `UnexpectedEof` when the stream ends early, exactly as
`Read::read_exact` does. -/

/-- A seekable byte stream with its current position. -/
structure RStream where
  bytes : List Nat
  pos : Nat
  deriving DecidableEq, Repr

/-- `Read::read_exact` of `n` bytes at the cursor: succeeds with the bytes and
the advanced stream, or fails with `UnexpectedEof`. -/
def readBytes (n : Nat) (s : RStream) : Except ErrKind (List Nat × RStream) :=
  let chunk := (s.bytes.drop s.pos).take n
  if chunk.length = n then .ok (chunk, ⟨s.bytes, s.pos + n⟩)
  else .error .unexpectedEof

/-- Little-endian value of a byte list (first byte least significant). -/
def leVal (l : List Nat) : Nat := l.foldr (fun b acc => b + 256 * acc) 0

/-- `byteorder::ReadBytesExt::read_u16::<LittleEndian>`. -/
def read_u16 (s : RStream) : Except ErrKind (Nat × RStream) :=
  (readBytes 2 s).map fun p => (leVal p.1, p.2)

/-- `byteorder::ReadBytesExt::read_u32::<LittleEndian>`. -/
def read_u32 (s : RStream) : Except ErrKind (Nat × RStream) :=
  (readBytes 4 s).map fun p => (leVal p.1, p.2)

/-- `byteorder::ReadBytesExt::read_u64::<LittleEndian>`. -/
def read_u64 (s : RStream) : Except ErrKind (Nat × RStream) :=
  (readBytes 8 s).map fun p => (leVal p.1, p.2)

/-- `byteorder::ReadBytesExt::read_i16::<LittleEndian>`: the 16-bit value
interpreted as two's complement. -/
def read_i16 (s : RStream) : Except ErrKind (Int × RStream) :=
  (readBytes 2 s).map fun p =>
    (if leVal p.1 < 2 ^ 15 then (leVal p.1 : Int) else (leVal p.1 : Int) - 2 ^ 16, p.2)

/-- `EntryReference::read` (`metadata.rs:257`): one little-endian `u64`. -/
def EntryReference.readS (s : RStream) : Except ErrKind (EntryReference × RStream) :=
  (read_u64 s).map fun p => (⟨p.1⟩, p.2)

/-! ## Superblock (`superblock.rs`) -/

/-- `Compressor` (`superblock.rs:54`); `num_enum` maps every unlisted `u16`
to the `default` variant `Unknown`, so `Compressor::try_from(..).unwrap()`
in `Superblock::read` never panics. -/
inductive Compressor where
  | none
  | gzip
  | lzo
  | lzma
  | xz
  | lz4
  | zstd
  | unknown
  deriving DecidableEq, Repr

/-- `Compressor::try_from` on a `u16` (with the `num_enum` default). -/
def Compressor.ofU16 (v : Nat) : Compressor :=
  if v = 1 then .gzip
  else if v = 2 then .lzo
  else if v = 3 then .lzma
  else if v = 4 then .xz
  else if v = 5 then .lz4
  else if v = 6 then .zstd
  else .unknown

/-- `SuperblockFlags::from_bits_truncate`: keep only the defined flag bits
(`superblock.rs:36-50`; the defined bits sum to `0xFFB`). -/
def superblockFlagsTruncate (v : Nat) : Nat := v &&& 0xFFB

/-- `Superblock` (`superblock.rs:14`). -/
structure Superblock where
  magic : Nat
  inode_count : Nat
  mod_time : Nat
  block_size : Nat
  frag_count : Nat
  compressor : Compressor
  block_log : Nat
  flags : Nat
  id_count : Nat
  version_major : Nat
  version_minor : Nat
  root_inode : EntryReference
  bytes_used : Nat
  id_table : Nat
  xattr_table : Nat
  inode_table : Nat
  dir_table : Nat
  frag_table : Nat
  export_table : Nat
  deriving DecidableEq, Repr

/-- `Superblock::read` (`superblock.rs:84-108`): 21 sequential little-endian
field reads, 96 bytes in total.  The decoded `magic` field is stored as
read; no comparison against `MAGIC` is performed anywhere in the function. -/
def Superblock.read (s : RStream) : Except ErrKind (Superblock × RStream) := do
  let (magic, s) ← read_u32 s
  let (inode_count, s) ← read_u32 s
  let (mod_time, s) ← read_u32 s
  let (block_size, s) ← read_u32 s
  let (frag_count, s) ← read_u32 s
  let (compressor, s) ← (read_u16 s).map fun p => (Compressor.ofU16 p.1, p.2)
  let (block_log, s) ← read_u16 s
  let (flags, s) ← (read_u16 s).map fun p => (superblockFlagsTruncate p.1, p.2)
  let (id_count, s) ← read_u16 s
  let (version_major, s) ← read_u16 s
  let (version_minor, s) ← read_u16 s
  let (root_inode, s) ← EntryReference.readS s
  let (bytes_used, s) ← read_u64 s
  let (id_table, s) ← read_u64 s
  let (xattr_table, s) ← read_u64 s
  let (inode_table, s) ← read_u64 s
  let (dir_table, s) ← read_u64 s
  let (frag_table, s) ← read_u64 s
  let (export_table, s) ← read_u64 s
  pure ({ magic, inode_count, mod_time, block_size, frag_count, compressor,
          block_log, flags, id_count, version_major, version_minor, root_inode,
          bytes_used, id_table, xattr_table, inode_table, dir_table,
          frag_table, export_table }, s)

/-- The magic constant `MAGIC` (`superblock.rs:11`). -/
def MAGIC : Nat := 0x73717368

/-! ## Panic-aware computations -/

namespace POut

/-- Rust `?` / monadic sequencing over panic-aware outcomes. -/
def bind {α β : Type} : POut α → (α → POut β) → POut β
  | .ok a, f => f a
  | .err e, _ => .err e
  | .panic, _ => .panic

instance : Monad POut where
  pure := .ok
  bind := POut.bind

/-- Lift an `io::Result` (no panic possible) into a panic-aware outcome. -/
def liftE {α : Type} : Except ErrKind α → POut α
  | .ok a => .ok a
  | .error e => .err e

end POut

/-! ## Inodes (`metadata.rs`) -/

/-- `InodeType` (`metadata.rs:477`); `num_enum` default maps unknown codes to
`Unknown`. -/
inductive InodeType where
  | basicDir
  | basicFile
  | basicSymlink
  | basicBlockDev
  | basicCharDev
  | basicNamedPipe
  | basicSocked
  | extDir
  | extFile
  | extSymlink
  | extBlockDev
  | extCharDev
  | extNamedPipe
  | extSocked
  | unknown
  deriving DecidableEq, Repr

/-- `BasicDirInfo` (`metadata.rs:511`). -/
structure BasicDirInfo where
  block_index : Nat
  link_count : Nat
  file_size : Nat
  block_offset : Nat
  parent_inode : Nat
  deriving DecidableEq, Repr

/-- `ExtDirInfo` (`metadata.rs:522`). -/
structure ExtDirInfo where
  link_count : Nat
  file_size : Nat
  block_index : Nat
  parent_inode : Nat
  index_count : Nat
  block_offset : Nat
  xattr_index : Nat
  deriving DecidableEq, Repr

/-- `BasicFileInfo` (`metadata.rs:535`). -/
structure BasicFileInfo where
  blocks_start : Nat
  frag_index : Nat
  block_offset : Nat
  file_size : Nat
  block_sizes : List Nat
  deriving DecidableEq, Repr

/-- `BasicSymlinkInfo` (`metadata.rs:547`); the target path is a `CString`,
kept as its byte content. -/
structure BasicSymlinkInfo where
  link_count : Nat
  target_path : List Nat
  deriving DecidableEq, Repr

/-- `BasicDevInfo` (`metadata.rs:555`). -/
structure BasicDevInfo where
  link_count : Nat
  dev_number : Nat
  deriving DecidableEq, Repr

/-- `BasicIpcInfo` (`metadata.rs:563`). -/
structure BasicIpcInfo where
  link_count : Nat
  deriving DecidableEq, Repr

/-- `InodeExtendedInfo` (`metadata.rs:498`).  Note there is no variant for
extended file inodes: they decode to `None`. -/
inductive InodeExtendedInfo where
  | none
  | basicDir (i : BasicDirInfo)
  | extDir (i : ExtDirInfo)
  | basicFile (i : BasicFileInfo)
  | basicSymlink (i : BasicSymlinkInfo)
  | basicDev (i : BasicDevInfo)
  | basicIpc (i : BasicIpcInfo)
  deriving DecidableEq, Repr

/-- `Inode` (`metadata.rs:465`). -/
structure Inode where
  inode_type : InodeType
  permissions : Nat
  uid_index : Nat
  gid_index : Nat
  mtime : Nat
  inode_number : Nat
  extended_info : InodeExtendedInfo
  deriving DecidableEq, Repr

/-- `FragmentEntry` (`metadata.rs:371`). -/
structure FragmentEntry where
  start : Nat
  size : Nat
  deriving DecidableEq, Repr

/-! ## File data reader (`filedata.rs`)

The external decompressor crates (`flate2`, `lzma-rs`) are not part of this
repository, so the `InnerReader` a `FileDataReader` builds around them is
represented symbolically: each variant records which backing-store region the
decoder was bound to and how its input/output was limited, exactly as the
constructor expressions at `filedata.rs:129-156` do.  The operations issued
to the backing store (the `Seek` calls on the base reader) are recorded so
that "does not touch the backing store" is a statable property. -/

/-- `FileBlockInfo` (`filedata.rs:15`). -/
structure FileBlockInfo where
  disk_offset : Nat
  disk_len : Nat
  data_offset : Nat
  data_len : Nat
  is_compressed : Bool
  deriving DecidableEq, Repr

/-- A `Seek` operation issued to the backing store. -/
inductive StoreOp where
  | seekTo (addr : Nat)
  deriving DecidableEq, Repr

/-- Symbolic state of `InnerReader` (`filedata.rs:218`): which variant is
held and how the held decoder was constructed.
`gzip blockStart compLimit outLimit skipped` is
`ZlibDecoder::new(r.take(compLimit)).take(outLimit)` built after seeking the
base reader to `blockStart` and then discarding `skipped` decoded bytes;
`buffer` holds the bytes produced by the one-shot xz decompression and the
cursor position inside them. -/
inductive InnerDesc where
  | noneR
  | base
  | uncompressed (seekPos takeLen : Nat)
  | gzip (blockStart compLimit outLimit skipped : Nat)
  | buffer (bytes : List Nat) (cursor : Nat)
  deriving DecidableEq, Repr

/-- `FileDataReader` (`filedata.rs:40`). -/
structure FileDataReader where
  inner : InnerDesc
  pos : Nat
  comp : Compressor
  block_size : Nat
  file_size : Nat
  blocks : List FileBlockInfo
  deriving DecidableEq, Repr

/-- One step of the block-descriptor loop of `FileDataReader::from_inode`
(`filedata.rs:64-79`): `(offset, remaining, acc)` is the loop state, `b` the
raw `u32` size word. -/
def from_inode_step (block_size : Nat) (st : Nat × Nat × List FileBlockInfo)
    (b : Nat) : Nat × Nat × List FileBlockInfo :=
  let offset := st.1
  let remaining := st.2.1
  let acc := st.2.2
  let data_len := if block_size ≤ remaining then block_size else remaining
  (offset + b, remaining - data_len,
    acc ++ [{ disk_offset := offset, disk_len := b &&& 0xFFFFFF,
              data_offset := 0, data_len := data_len,
              is_compressed := b &&& 0x1000000 = 0 }])

/-- `FileDataReader::from_inode` (`filedata.rs:50-97`).  `flt` stands for the
outcome of `metadata::FragmentLookupTable::read(&mut inner, sb)` — the list
of fragment entries parsed from the backing store (it is only consulted when
`frag_index != u32::MAX`).  Indexing the fragment table out of bounds
panics, as `&ft.lu_table.entries[i.frag_index as usize]` does; the tail
descriptor divides by `block_size`, which panics when it is zero. -/
def from_inode (flt : Except ErrKind (List FragmentEntry)) (sb : Superblock)
    (inode : Inode) : POut (Option FileDataReader) :=
  match inode.extended_info with
  | .basicFile i =>
    let file_size := i.file_size
    let loop := i.block_sizes.foldl (from_inode_step sb.block_size)
      (i.blocks_start, file_size, [])
    let blocks := loop.2.2
    if i.frag_index ≠ 0xFFFFFFFF then
      match flt with
      | .error e => .err e
      | .ok entries =>
        match entries[i.frag_index]? with
        | Option.none => .panic
        | Option.some f =>
          if sb.block_size = 0 then .panic
          else
            let tail : FileBlockInfo :=
              { disk_offset := f.start, disk_len := f.size &&& 0xFFFFFF,
                data_offset := i.block_offset,
                data_len := i.file_size % sb.block_size,
                is_compressed := f.size &&& 0x1000000 = 0 }
            .ok (Option.some
              { inner := .base, pos := 0, comp := sb.compressor,
                block_size := sb.block_size, file_size := file_size,
                blocks := blocks ++ [tail] })
    else
      .ok (Option.some
        { inner := .base, pos := 0, comp := sb.compressor,
          block_size := sb.block_size, file_size := file_size,
          blocks := blocks })
  | _ => .ok Option.none

/-- `FileDataReader::calc_block_and_offset` (`filedata.rs:106-115`): block
descriptor, in-block data offset and remaining data for a file position.
Division by a zero `block_size` and indexing `blocks` out of bounds panic;
`b.data_len - data_offset` is `u32` arithmetic. -/
def calc_block_and_offset (r : FileDataReader) (pos : Nat) :
    POut (Option (FileBlockInfo × Nat × Nat)) :=
  if pos ≥ r.file_size then .ok Option.none
  else if r.block_size = 0 then .panic
  else
    let block_index := pos / r.block_size
    let data_offset := pos % r.block_size
    match r.blocks[block_index]? with
    | Option.none => .panic
    | Option.some b =>
      .ok (Option.some (b, b.data_offset + data_offset, wsub32 b.data_len data_offset))

/-- `FileDataReader::prepare_inner` (`filedata.rs:119-162`): close the
current block reader, pick the block for `self.pos` and construct the next
inner reader, returning it with the list of `Seek` operations issued to the
backing store.  `xzDecode off len` abstracts `lzma_rs::xz_decompress` over
the `len` backing bytes at `off` (an external crate): its failure is mapped
to `invalid_data` as at `filedata.rs:147`.  `InnerReader::into_inner` on the
`None` variant panics (`filedata.rs:236`). -/
def prepare_inner (xzDecode : Nat → Nat → Except ErrKind (List Nat))
    (r : FileDataReader) : POut ((InnerDesc × List StoreOp) × FileDataReader) :=
  if r.inner = .noneR then .panic
  else
    match calc_block_and_offset r r.pos with
    | .panic => .panic
    | .err e => .err e
    | .ok Option.none => .err .unexpectedEof
    | .ok (Option.some (block, offset, data_remaining)) =>
      if ¬block.is_compressed then
        let d := InnerDesc.uncompressed (block.disk_offset + offset) data_remaining
        .ok ((d, [.seekTo (block.disk_offset + offset)]), { r with inner := d })
      else
        match r.comp with
        | .gzip =>
          let d := InnerDesc.gzip block.disk_offset block.disk_len
            (offset + data_remaining) offset
          .ok ((d, [.seekTo block.disk_offset]), { r with inner := d })
        | .xz =>
          match xzDecode block.disk_offset block.disk_len with
          | .error _ => .err .invalidData
          | .ok decoded =>
            let d := InnerDesc.buffer decoded (min offset decoded.length)
            .ok ((d, [.seekTo block.disk_offset]), { r with inner := d })
        | _ => .err .unsupported

/-- `impl Read for FileDataReader` (`filedata.rs:165-183`).  `innerRead`
abstracts `InnerReader::read` (the external decoders): given the inner
descriptor and the buffer length it yields the byte count delivered and the
descriptor afterwards. -/
def FileDataReader.read
    (xzDecode : Nat → Nat → Except ErrKind (List Nat))
    (innerRead : InnerDesc → Nat → Except ErrKind (Nat × InnerDesc))
    (r : FileDataReader) (bufLen : Nat) : POut (Nat × FileDataReader) :=
  if r.pos ≥ r.file_size then .ok (0, r)
  else
    let afterPrep : POut FileDataReader :=
      if r.inner = .base then
        match prepare_inner xzDecode r with
        | .panic => .panic
        | .err e => .err e
        | .ok (_, r1) => .ok r1
      else .ok r
    match afterPrep with
    | .panic => .panic
    | .err e => .err e
    | .ok r1 =>
      match innerRead r1.inner bufLen with
      | .error e => .err e
      | .ok (size, d1) =>
        let r2 := { r1 with inner := d1 }
        if size = 0 ∧ bufLen ≠ 0 then
          match prepare_inner xzDecode r2 with
          | .panic => .panic
          | .err e => .err e
          | .ok (_, r3) =>
            match innerRead r3.inner bufLen with
            | .error e => .err e
            | .ok (size2, d2) =>
              .ok (size2, { r3 with inner := d2, pos := r3.pos + size2 })
        else
          .ok (size, { r2 with pos := r2.pos + size })

/-- `std::io::SeekFrom`. -/
inductive SeekFrom where
  | start (x : Nat)
  | fromEnd (x : Int)
  | current (x : Int)
  deriving DecidableEq, Repr

/-- `impl Seek for FileDataReader` (`filedata.rs:185-216`).  `skipAhead`
abstracts the `io::copy` that drains `distance` decoded bytes from the
current inner reader (`filedata.rs:208`).  The two
`calc_block_and_offset(..).unwrap()` calls at `filedata.rs:201-202` panic
when the position is at or past `file_size`. -/
def FileDataReader.seek
    (xzDecode : Nat → Nat → Except ErrKind (List Nat))
    (skipAhead : Nat → Except ErrKind Unit)
    (r : FileDataReader) (sf : SeekFrom) : POut (Nat × FileDataReader) :=
  let target : POut Nat :=
    match sf with
    | .start x => .ok x
    | .fromEnd x =>
      if r.file_size ≥ 2 ^ 63 then .panic
      else if x + (r.file_size : Int) < 0 then .err .invalidInput
      else .ok (x + (r.file_size : Int)).toNat
    | .current x =>
      if r.pos ≥ 2 ^ 63 then .panic
      else if x + (r.pos : Int) < 0 then .err .invalidInput
      else .ok (x + (r.pos : Int)).toNat
  match target with
  | .panic => .panic
  | .err e => .err e
  | .ok target_pos =>
    if r.inner = .base then .ok (target_pos, { r with pos := target_pos })
    else
      match calc_block_and_offset r r.pos with
      | .panic => .panic
      | .err e => .err e
      | .ok Option.none => .panic
      | .ok (Option.some (cur_block, cur_data_offset, _)) =>
        match calc_block_and_offset r target_pos with
        | .panic => .panic
        | .err e => .err e
        | .ok Option.none => .panic
        | .ok (Option.some (target_block, target_data_offset, _)) =>
          if cur_block = target_block ∧ cur_data_offset ≤ target_data_offset then
            match skipAhead (target_data_offset - cur_data_offset) with
            | .error e => .err e
            | .ok _ => .ok (target_pos, { r with pos := target_pos })
          else
            match prepare_inner xzDecode { r with pos := target_pos } with
            | .panic => .panic
            | .err e => .err e
            | .ok (_, r1) => .ok (target_pos, r1)

/-- `SquashFS::open_file_inode` (`squashfs.rs:92-95`):
`Ok(FileDataReader::from_inode(..)?.unwrap())` — the `?` propagates errors
and the `.unwrap()` panics when `from_inode` returns `Ok(None)`, which it
does for every inode that is not a basic file. -/
def open_file_inode (flt : Except ErrKind (List FragmentEntry))
    (sb : Superblock) (inode : Inode) : POut FileDataReader :=
  match from_inode flt sb inode with
  | .panic => .panic
  | .err e => .err e
  | .ok Option.none => .panic
  | .ok (Option.some r) => .ok r

/-! ## C strings and UTF-8 (`std::ffi::CString`, `str`) -/

/-- `CString::new(bytes)`: fails iff the bytes contain a NUL byte; otherwise
the `CString` holds exactly those bytes. -/
def cstring_new (l : List Nat) : Option (List Nat) :=
  if l.contains 0 then Option.none else Option.some l

/-- A UTF-8 continuation byte (`0x80..=0xBF`). -/
def contB (b : Nat) : Bool := 0x80 ≤ b ∧ b ≤ 0xBF

/-- Validity of a byte sequence as UTF-8, per the encoding ranges checked by
`str::from_utf8` (which backs `CStr::to_str`). -/
def validUtf8 : List Nat → Bool
  | [] => true
  | b :: rest =>
    if b < 0x80 then validUtf8 rest
    else if 0xC2 ≤ b ∧ b ≤ 0xDF then
      match rest with
      | c1 :: r => contB c1 && validUtf8 r
      | _ => false
    else if b = 0xE0 then
      match rest with
      | c1 :: c2 :: r => (decide (0xA0 ≤ c1 ∧ c1 ≤ 0xBF)) && contB c2 && validUtf8 r
      | _ => false
    else if (0xE1 ≤ b ∧ b ≤ 0xEC) ∨ b = 0xEE ∨ b = 0xEF then
      match rest with
      | c1 :: c2 :: r => contB c1 && contB c2 && validUtf8 r
      | _ => false
    else if b = 0xED then
      match rest with
      | c1 :: c2 :: r => (decide (0x80 ≤ c1 ∧ c1 ≤ 0x9F)) && contB c2 && validUtf8 r
      | _ => false
    else if b = 0xF0 then
      match rest with
      | c1 :: c2 :: c3 :: r =>
        (decide (0x90 ≤ c1 ∧ c1 ≤ 0xBF)) && contB c2 && contB c3 && validUtf8 r
      | _ => false
    else if 0xF1 ≤ b ∧ b ≤ 0xF3 then
      match rest with
      | c1 :: c2 :: c3 :: r => contB c1 && contB c2 && contB c3 && validUtf8 r
      | _ => false
    else if b = 0xF4 then
      match rest with
      | c1 :: c2 :: c3 :: r =>
        (decide (0x80 ≤ c1 ∧ c1 ≤ 0x8F)) && contB c2 && contB c3 && validUtf8 r
      | _ => false
    else false

/-! ## Directory tables (`metadata.rs`) -/

/-- `InodeType::try_from` on a `u16` (with the `num_enum` default). -/
def InodeType.ofU16 (v : Nat) : InodeType :=
  if v = 1 then .basicDir else if v = 2 then .basicFile
  else if v = 3 then .basicSymlink else if v = 4 then .basicBlockDev
  else if v = 5 then .basicCharDev else if v = 6 then .basicNamedPipe
  else if v = 7 then .basicSocked else if v = 8 then .extDir
  else if v = 9 then .extFile else if v = 10 then .extSymlink
  else if v = 11 then .extBlockDev else if v = 12 then .extCharDev
  else if v = 13 then .extNamedPipe else if v = 14 then .extSocked
  else .unknown

/-- `metadata::DirEntry` (`metadata.rs:744`); `name` holds the `CString`
content bytes. -/
structure DirEntry where
  offset : Nat
  inode_offset : Int
  inode_type : InodeType
  name : List Nat
  deriving DecidableEq, Repr

/-- `DirTable` (`metadata.rs:734`). -/
structure DirTable where
  count : Nat
  start : Nat
  inode_number : Nat
  entries : List DirEntry
  deriving DecidableEq, Repr

/-- One entry of the `DirTable::load` loop (`metadata.rs:759-773`): reads
`offset`, `inode_offset`, `inode_type`, `name_size`, then `name_size + 1`
name bytes (a short read is `UnexpectedEof`), and builds the name `CString`
with `CString::new(..).unwrap()` — a panic when the name bytes contain NUL.
`name_size` is `u16` arithmetic. -/
def loadDirEntry (s : RStream) : POut (DirEntry × RStream) :=
  match read_u16 s with
  | .error e => .err e
  | .ok (offset, s) =>
  match read_i16 s with
  | .error e => .err e
  | .ok (inode_offset, s) =>
  match read_u16 s with
  | .error e => .err e
  | .ok (itype, s) =>
  match read_u16 s with
  | .error e => .err e
  | .ok (nsz, s) =>
  let name_size := (nsz + 1) % 2 ^ 16
  match readBytes name_size s with
  | .error e => .err e
  | .ok (name_buf, s) =>
  match cstring_new name_buf with
  | Option.none => .panic
  | Option.some nm =>
    .ok ({ offset := offset, inode_offset := inode_offset,
           inode_type := InodeType.ofU16 itype, name := nm }, s)

/-- The `count`-iteration entry loop of `DirTable::load`. -/
def loadDirEntries : Nat → RStream → POut (List DirEntry × RStream)
  | 0, s => .ok ([], s)
  | n + 1, s =>
    match loadDirEntry s with
    | .panic => .panic
    | .err e => .err e
    | .ok (e, s1) =>
      match loadDirEntries n s1 with
      | .panic => .panic
      | .err e2 => .err e2
      | .ok (es, s2) => .ok (e :: es, s2)

/-- `DirTable::load` (`metadata.rs:752-777`): header `{count+1, start,
inode_number}` then `count+1` entries.  `count` is `u32` arithmetic. -/
def DirTable.load (s : RStream) : POut (DirTable × RStream) :=
  match read_u32 s with
  | .error e => .err e
  | .ok (c, s) =>
  let count := (c + 1) % 2 ^ 32
  match read_u32 s with
  | .error e => .err e
  | .ok (start, s) =>
  match read_u32 s with
  | .error e => .err e
  | .ok (inode_number, s) =>
  match loadDirEntries count s with
  | .panic => .panic
  | .err e => .err e
  | .ok (entries, s1) =>
    .ok ({ count := count, start := start, inode_number := inode_number,
           entries := entries }, s1)

/-- The `while reader.limit() > 0` loop of `DirTable::read_for_inode`
(`metadata.rs:795-797`), with explicit fuel (each successful `load` consumes
at least 12 bytes of the limit, so `limit + 1` iterations always suffice). -/
def loadDirTables : Nat → RStream → Nat → POut (List DirTable)
  | 0, _, _ => .ok []
  | fuel + 1, s, limit =>
    if limit = 0 then .ok []
    else
      match DirTable.load s with
      | .panic => .panic
      | .err e => .err e
      | .ok (t, s1) =>
        match loadDirTables fuel s1 (limit - (s1.pos - s.pos)) with
        | .panic => .panic
        | .err e => .err e
        | .ok ts => .ok (t :: ts)

/-- `DirTable::read_for_inode` (`metadata.rs:779-799`): a non-directory
inode is rejected with `InvalidInput` ("Inode is not a directory"); for a
directory, seek to `dir_table + block_index`, discard `block_offset` bytes
(`io::copy` into a sink stops quietly at end of stream), then parse
`DirTable`s from the next `file_size - 3` bytes (`u32` arithmetic). -/
def read_for_inode (s : RStream) (sb : Superblock) (inode : Inode) :
    POut (List DirTable) :=
  match inode.extended_info with
  | .basicDir d => read_for_inode_dir s sb d.block_index d.block_offset d.file_size
  | .extDir d => read_for_inode_dir s sb d.block_index d.block_offset d.file_size
  | _ => .err .invalidInput
where
  /-- The directory arm shared by both variants. -/
  read_for_inode_dir (s : RStream) (sb : Superblock)
      (block_index block_offset file_size : Nat) : POut (List DirTable) :=
    let p0 := sb.dir_table + block_index
    let p1 := min (p0 + block_offset) s.bytes.length
    let limit := wsub32 file_size 3
    let slice : RStream := ⟨(s.bytes.drop p1).take limit, 0⟩
    loadDirTables (limit + 1) slice limit

/-- `squashfs::DirEntry` (`squashfs.rs:133`): a directory entry as surfaced
by the `ReadDir` iterator. -/
structure SqDirEntry where
  inner : DirEntry
  inode_ref : EntryReference
  inode_num : Nat
  deriving DecidableEq, Repr

/-- `squashfs::DirEntry::new` (`squashfs.rs:140-144`): the entry reference
packs the table start with the entry offset; the inode number is
`dt_inode_num.wrapping_add_signed(inner.inode_offset as i32)`. -/
def SqDirEntry.new (dt_start : Nat) (dt_inode_num : Nat) (inner : DirEntry) :
    SqDirEntry :=
  { inner := inner,
    inode_ref := EntryReference.new dt_start inner.offset,
    inode_num := (((dt_inode_num : Int) + inner.inode_offset).emod (2 ^ 32)).toNat }

/-- `squashfs::DirEntry::file_name` (`squashfs.rs:146-148`):
`self.inner.name.to_str().unwrap().to_string()` — `CStr::to_str` checks
UTF-8 validity and the `unwrap` panics when it fails; on success the
returned `String` holds exactly the stored name bytes. -/
def SqDirEntry.file_name (e : SqDirEntry) : POut (List Nat) :=
  if validUtf8 e.inner.name then .ok e.inner.name else .panic

/-! ## Shared-reader multiplexer (`readermux.rs`)

The generic backing stream `R: Read + Seek` is modelled by a state type `σ`
with two operations; each returns its `io::Result` together with the stream
state afterwards (a failed operation may still have changed device state). -/

/-- Operations of the backing stream underlying a `ReaderMux`. -/
structure BackOps (σ : Type) where
  seekAbs : σ → Nat → Except ErrKind Nat × σ
  readB : σ → Nat → Except ErrKind (Nat × List Nat) × σ

/-- `SharedReader` (`readermux.rs:12`): the backing stream plus the id of
the client that last touched it. -/
structure SharedReader (σ : Type) where
  inner : σ
  active_id : Nat

/-- `ReaderClient` (`readermux.rs:43`): a client id and its stored logical
position. -/
structure ReaderClient where
  id : Nat
  pos : Nat
  deriving DecidableEq, Repr

/-- `ReaderClient::activate` (`readermux.rs:52-61`).  Translated statement
for statement: when the client is not active the source first assigns
`sr.active_id = self.id` and only then issues the absolute seek, so a seek
failure leaves `active_id` already switched.  A successful seek that lands
elsewhere than `self.pos` fails the `assert!` (a panic). -/
def ReaderClient.activate {σ : Type} (B : BackOps σ) (c : ReaderClient)
    (sr : SharedReader σ) : POut Nat × SharedReader σ :=
  if sr.active_id ≠ c.id then
    let sr1 : SharedReader σ := { sr with active_id := c.id }
    match B.seekAbs sr1.inner c.pos with
    | (.error e, inner1) => (.err e, { sr1 with inner := inner1 })
    | (.ok new_pos, inner1) =>
      if new_pos = c.pos then (.ok new_pos, { sr1 with inner := inner1 })
      else (.panic, { sr1 with inner := inner1 })
  else (.ok c.pos, sr)

/-- `impl Read for ReaderClient` (`readermux.rs:64-76`): activate, then read
from the shared stream, advancing the stored position by the bytes read. -/
def ReaderClient.read {σ : Type} (B : BackOps σ) (c : ReaderClient)
    (sr : SharedReader σ) (len : Nat) :
    POut (List Nat) × ReaderClient × SharedReader σ :=
  match c.activate B sr with
  | (.panic, sr1) => (.panic, c, sr1)
  | (.err e, sr1) => (.err e, c, sr1)
  | (.ok _, sr1) =>
    match B.readB sr1.inner len with
    | (.error e, inner1) => (.err e, c, { sr1 with inner := inner1 })
    | (.ok (n, data), inner1) =>
      (.ok data, { c with pos := c.pos + n }, { sr1 with inner := inner1 })

/-- A concrete backing stream for evaluating the mux: a byte list, a cursor,
and a count of injected seek failures (an I/O device that rejects the next
`failSeeks` seeks). -/
structure FaultyStream where
  bytes : List Nat
  spos : Nat
  failSeeks : Nat
  deriving DecidableEq, Repr

/-- Absolute seek on the concrete backing stream. -/
def faultySeek (s : FaultyStream) (p : Nat) : Except ErrKind Nat × FaultyStream :=
  if s.failSeeks ≠ 0 then (.error .otherErr, { s with failSeeks := s.failSeeks - 1 })
  else (.ok p, { s with spos := p })

/-- Read on the concrete backing stream: delivers the bytes at the cursor. -/
def faultyRead (s : FaultyStream) (len : Nat) :
    Except ErrKind (Nat × List Nat) × FaultyStream :=
  let chunk := (s.bytes.drop s.spos).take len
  (.ok (chunk.length, chunk), { s with spos := s.spos + chunk.length })

/-- The concrete `BackOps` instance over `FaultyStream`. -/
def faultyOps : BackOps FaultyStream := ⟨faultySeek, faultyRead⟩

/-! ## Fragment block cache (`block.rs`)

`block_readers: HashMap<u64, ReaderMux<..>>` is modelled as an association
list; the constructed per-block reader muxes are an abstract type `β`
produced by `create` (standing for `create_block_reader`, `block.rs:111`,
whose seek or decoder construction may fail).  The `creations` field is a
ghost event log recording each successful construction, so "decompressed at
most once" is statable. -/

/-- `FragmentBlockCache` (`block.rs:68`) with a ghost log of successful
block-reader constructions. -/
structure FragmentBlockCache (β : Type) where
  block_readers : List (Nat × β)
  creations : List Nat

/-- Association-list lookup standing for `HashMap::get`/`entry`. -/
def lookupA {β : Type} : List (Nat × β) → Nat → Option β
  | [], _ => Option.none
  | (k, v) :: rest, addr => if k = addr then Option.some v else lookupA rest addr

/-- `FragmentBlockCache::get_or_create_block_reader` (`block.rs:96-108`):
an occupied entry is returned as is; a vacant entry runs
`create_block_reader` and inserts the result.  Nothing is inserted when the
construction fails. -/
def get_or_create_block_reader {β : Type} (create : Nat → Except ErrKind β)
    (st : FragmentBlockCache β) (addr : Nat) :
    Except ErrKind (β × FragmentBlockCache β) :=
  match lookupA st.block_readers addr with
  | Option.some br => .ok (br, st)
  | Option.none =>
    match create addr with
    | .error e => .error e
    | .ok br =>
      .ok (br, { block_readers := (addr, br) :: st.block_readers,
                 creations := st.creations ++ [addr] })

/-- A sequence of fragment-reader requests against the cache (each request
is the block address passed by `get_fragment_reader`, `block.rs:88`); a
failed request leaves the cache unchanged and the archive continues. -/
def runFragReqs {β : Type} (create : Nat → Except ErrKind β) :
    FragmentBlockCache β → List Nat → FragmentBlockCache β
  | st, [] => st
  | st, a :: rest =>
    match get_or_create_block_reader create st a with
    | .error _ => runFragReqs create st rest
    | .ok (_, st1) => runFragReqs create st1 rest

/-! ## Path resolution (`squashfs.rs`)

`SquashFS::inode_from_path` walks `std::path::Component` values.  The
archive queries it makes (`root_inode`, `read_dir_inode`,
`inode_from_entryref`, which go through the metadata machinery) are
abstracted as an oracle; the component dispatch under verification is the
loop body at `squashfs.rs:114-125`. -/

/-- `std::path::Component`: a Windows-style drive piece, the root
separator, `.`, `..`, or a normal name (byte sequence). -/
inductive PathComponent where
  | winDrive
  | rootDir
  | curDir
  | parentDir
  | normal (name : List Nat)
  deriving DecidableEq, Repr

/-- A directory entry as the `ReadDir` iterator yields it: the stored name
bytes and the entry reference. -/
structure DirEntryView where
  name : List Nat
  inode_ref : EntryReference
  deriving DecidableEq, Repr

/-- The archive queries `inode_from_path` performs: `self.root_inode()`,
`self.read_dir_inode(..)` and `self.inode_from_entryref(..)`. -/
structure FsOracle where
  rootI : Except ErrKind Inode
  readDirEntries : Inode → Except ErrKind (List DirEntryView)
  inodeAt : EntryReference → Except ErrKind Inode

/-- `Iterator::find(|e| n == e.file_name().as_str())` (`squashfs.rs:118`):
scan the entries in order; `e.file_name()` panics on a name that is not
valid UTF-8 (`squashfs.rs:147`), and `OsStr == str` is byte equality. -/
def findEntryByName (n : List Nat) : List DirEntryView → POut (Option DirEntryView)
  | [] => .ok Option.none
  | e :: rest =>
    if validUtf8 e.name then
      if n = e.name then .ok (Option.some e) else findEntryByName n rest
    else .panic

/-- The component loop of `SquashFS::inode_from_path` (`squashfs.rs:114-125`):
`RootDir` re-reads the root inode; `Normal(n)` looks the name up in the
current directory (errors of `inode_from_entryref` become `NotFound` via
`.ok()/flatten().ok_or(..)`); every other component shape — `Prefix`,
`CurDir` and `ParentDir` alike — hits the `_` arm and returns an
`InvalidData` error ("Error parsing filepath"). -/
def inode_from_path_go (fs : FsOracle) : Inode → List PathComponent → POut Inode
  | inode, [] => .ok inode
  | _, .rootDir :: rest =>
    match fs.rootI with
    | .error e => .err e
    | .ok i => inode_from_path_go fs i rest
  | inode, .normal n :: rest =>
    match fs.readDirEntries inode with
    | .error e => .err e
    | .ok entries =>
      match findEntryByName n entries with
      | .panic => .panic
      | .err e => .err e
      | .ok Option.none => .err .notFound
      | .ok (Option.some e) =>
        match fs.inodeAt e.inode_ref with
        | .error _ => .err .notFound
        | .ok i => inode_from_path_go fs i rest
  | _, .winDrive :: _ => .err .invalidData
  | _, .curDir :: _ => .err .invalidData
  | _, .parentDir :: _ => .err .invalidData

/-- `SquashFS::inode_from_path` (`squashfs.rs:110-127`): start from
`self.root_inode()?` and fold the components. -/
def inode_from_path (fs : FsOracle) (comps : List PathComponent) : POut Inode :=
  match fs.rootI with
  | .error e => .err e
  | .ok root => inode_from_path_go fs root comps

/-- One component step, written from the amended claim (compared against the
source-derived `inode_from_path`): a root component resets to root, a normal
component is matched against the directory entries by byte-wise name
equality (`not_found` when absent or when the referenced inode cannot be
read), and `..`, `.` and any other non-normal component shape produce an
`invalid_data` error; earlier failures pass through. -/
def stepC5 (fs : FsOracle) (acc : POut Inode) (c : PathComponent) : POut Inode :=
  match acc with
  | POut.ok inode =>
    match c with
    | .rootDir => POut.liftE fs.rootI
    | .normal n =>
      match fs.readDirEntries inode with
      | .error e => .err e
      | .ok entries =>
        match entries.find? (fun e => decide (n = e.name)) with
        | Option.none => .err .notFound
        | Option.some e =>
          match fs.inodeAt e.inode_ref with
          | .error _ => .err .notFound
          | .ok i => .ok i
    | _ => .err .invalidData
  | other => other

/-- Written from the amended claim: resolution starts at the root inode and
folds the components through `stepC5`. -/
def resolveSpecC5 (fs : FsOracle) (comps : List PathComponent) : POut Inode :=
  comps.foldl (stepC5 fs) (POut.liftE fs.rootI)

/-! ## Concrete fixtures used to evaluate the embedded code -/

/-- A gzip superblock fixture: `block_size = 131072` (`block_log = 17`),
tables at offset 0, no fragments. -/
def sbGz : Superblock :=
  { magic := MAGIC, inode_count := 2, mod_time := 0, block_size := 131072,
    frag_count := 0, compressor := .gzip, block_log := 17, flags := 0,
    id_count := 1, version_major := 4, version_minor := 0,
    root_inode := EntryReference.new 0 0, bytes_used := 4096, id_table := 0,
    xattr_table := 0xFFFFFFFFFFFFFFFF, inode_table := 96, dir_table := 0,
    frag_table := 0xFFFFFFFFFFFFFFFF, export_table := 0xFFFFFFFFFFFFFFFF }

/-- A basic-file inode holding one sparse block: a single size word `0`
(disk length zero), `file_size = block_size`, no tail fragment. -/
def sparseFileInode : Inode :=
  { inode_type := .basicFile, permissions := 0o644, uid_index := 0,
    gid_index := 0, mtime := 0, inode_number := 2,
    extended_info := .basicFile
      { blocks_start := 4096, frag_index := 0xFFFFFFFF, block_offset := 0,
        file_size := 131072, block_sizes := [0] } }

/-- The `FileDataReader` that `from_inode` builds for `sparseFileInode`. -/
def sparseFDR : FileDataReader :=
  { inner := .base, pos := 0, comp := .gzip, block_size := 131072,
    file_size := 131072,
    blocks := [{ disk_offset := 4096, disk_len := 0, data_offset := 0,
                 data_len := 131072, is_compressed := true }] }

/-- A basic-directory inode fixture. -/
def dirInodeEx : Inode :=
  { inode_type := .basicDir, permissions := 0o755, uid_index := 0,
    gid_index := 0, mtime := 0, inode_number := 3,
    extended_info := .basicDir
      { block_index := 0, link_count := 2, file_size := 3, block_offset := 0,
        parent_inode := 1 } }

/-- A two-byte basic file stored in one compressed block of 5 on-disk
bytes. -/
def smallFileInode : Inode :=
  { inode_type := .basicFile, permissions := 0o644, uid_index := 0,
    gid_index := 0, mtime := 0, inode_number := 4,
    extended_info := .basicFile
      { blocks_start := 4096, frag_index := 0xFFFFFFFF, block_offset := 0,
        file_size := 2, block_sizes := [5] } }

/-- `from_inode` output for `smallFileInode`: fresh reader, no block open. -/
def smallFDR0 : FileDataReader :=
  { inner := .base, pos := 0, comp := .gzip, block_size := 131072,
    file_size := 2,
    blocks := [{ disk_offset := 4096, disk_len := 5, data_offset := 0,
                 data_len := 2, is_compressed := true }] }

/-- `smallFDR0` after reading one byte: the gzip block reader is open and
the logical position is 1 — a reachable mid-file state. -/
def smallFDR1 : FileDataReader :=
  { smallFDR0 with inner := .gzip 4096 5 2 0, pos := 1 }

/-- A trivial stand-in for `xz_decompress` (never consulted by the gzip
fixtures). -/
def xzNone : Nat → Nat → Except ErrKind (List Nat) := fun _ _ => .ok []

/-- An inner-reader behavior delivering one byte per call, leaving the
decoder state unchanged. -/
def innerReadOne : InnerDesc → Nat → Except ErrKind (Nat × InnerDesc) :=
  fun d _ => .ok (1, d)

/-- A skip-ahead (`io::copy` drain) that always succeeds. -/
def skipOk : Nat → Except ErrKind Unit := fun _ => .ok ()

/-- The root directory inode of the path-resolution fixture. -/
def rootInodeEx : Inode :=
  { inode_type := .basicDir, permissions := 0o755, uid_index := 0,
    gid_index := 0, mtime := 0, inode_number := 1,
    extended_info := .basicDir
      { block_index := 0, link_count := 3, file_size := 25, block_offset := 0,
        parent_inode := 1 } }

/-- The entry reference of the `"a"` entry in the fixture root. -/
def refA : EntryReference := EntryReference.new 0 32

/-- Path-resolution oracle: the root directory holds one entry `"a"`
(byte `97`) naming `dirInodeEx`. -/
def fsEx : FsOracle :=
  { rootI := .ok rootInodeEx,
    readDirEntries := fun i =>
      if i = rootInodeEx then .ok [⟨[97], refA⟩] else .ok [],
    inodeAt := fun r => if r = refA then .ok dirInodeEx else .error .notFound }

/-- Backing bytes of the reader-mux fixture. -/
def c7bytes : List Nat := [10, 11, 12, 13, 14, 15, 16, 17]

/-- Mux fixture: client 1 is active, the stream cursor is at 0, and the
next seek on the device fails. -/
def sr0 : SharedReader FaultyStream := ⟨⟨c7bytes, 0, 1⟩, 1⟩

/-- Mux fixture: client 2, stored position 5, not currently active. -/
def client2 : ReaderClient := ⟨2, 5⟩

end Squinter

/-! # Theorems -/

namespace Squinter

/-- **C8.** For every `loc < 2^48` and 16-bit `off`,
`EntryReference::new(loc, off)` satisfies `location() == loc` and
`offset() == off`: the pack/unpack round-trip law of `metadata.rs:237-249`. -/
theorem entryReference_roundtrip (loc off : Nat)
    (hloc : loc < 2 ^ 48) (hoff : off < 2 ^ 16) :
    (EntryReference.new loc off).location = loc ∧
    (EntryReference.new loc off).offset = off := by
  have hval : (EntryReference.new loc off).val = 2 ^ 16 * loc + off := by
    show (loc <<< 16) % 2 ^ 64 ||| off = 2 ^ 16 * loc + off
    have hsl : loc <<< 16 = 2 ^ 16 * loc := by
      rw [Nat.shiftLeft_eq, Nat.mul_comm]
    have hlt : 2 ^ 16 * loc < 2 ^ 64 := by
      have h48 : (2 : Nat) ^ 48 ≤ 2 ^ 48 := Nat.le_refl _
      nlinarith [hloc]
    -- `2^16 * loc` and `off < 2^16` occupy disjoint bits, so `|||` is `+`.
    rw [hsl, Nat.mod_eq_of_lt hlt, ← Nat.mul_add_lt_is_or hoff loc]
  constructor
  · show (EntryReference.new loc off).val >>> 16 = loc
    rw [hval, Nat.shiftRight_eq_div_pow, Nat.mul_add_div (by norm_num),
      Nat.div_eq_of_lt hoff]
    omega
  · show (EntryReference.new loc off).val &&& 0xFFFF = off
    have h16 : (0xFFFF : Nat) = 2 ^ 16 - 1 := by norm_num
    rw [hval, h16, Nat.and_pow_two_sub_one_eq_mod, Nat.mul_add_mod,
      Nat.mod_eq_of_lt hoff]

/-- Witness for C8 at `loc = 3`, `off = 7`. -/
theorem entryReference_roundtrip_witness :
    (EntryReference.new 3 7).location = 3 ∧ (EntryReference.new 3 7).offset = 7 :=
  entryReference_roundtrip 3 7 (by norm_num) (by norm_num)

/-- **C6.** Evaluation of the `Inode::read` `BasicFile` block-count at the
failing input `file_size = 0xFFFFFFFF`, `block_size = 0x20000`,
`frag_index = 0xFFFFFFFF`: the `u32` sum inside `div_ceil!` wraps
(release build; a debug build panics on the overflow), so the code reads
`0` per-block size words where `ceil(file_size / block_size) = 32768`.
The claim that the count equals the ceiling for all `u32` file sizes
fails at this input. -/
theorem num_blocks_overflow_at_failing_input :
    num_blocks 0xFFFFFFFF 0xFFFFFFFF 0x20000 = 0 ∧
    num_blocks 0xFFFFFFFF 0xFFFFFFFF 0x20000 ≠ (0xFFFFFFFF + 0x20000 - 1) / 0x20000 ∧
    (0xFFFFFFFF + 0x20000 - 1) / 0x20000 = 32768 := by
  refine ⟨?_, ?_, ?_⟩ <;> norm_num [num_blocks, div_ceil, wadd32, wsub32]

/-- Helper: `read_exact` succeeds whenever enough bytes remain. -/
theorem readBytes_ok (bytes : List Nat) (p n : Nat) (h : p + n ≤ bytes.length) :
    readBytes n ⟨bytes, p⟩ = .ok ((bytes.drop p).take n, ⟨bytes, p + n⟩) := by
  have hlen : ((bytes.drop p).take n).length = n := by
    simp [List.length_take, List.length_drop]
    omega
  simp [readBytes, hlen]

/-- Helper: `read_u16` succeeds whenever two bytes remain. -/
theorem read_u16_ok (bytes : List Nat) (p : Nat) (h : p + 2 ≤ bytes.length) :
    read_u16 ⟨bytes, p⟩ = .ok (leVal ((bytes.drop p).take 2), ⟨bytes, p + 2⟩) := by
  simp [read_u16, readBytes_ok bytes p 2 h, Except.map]

/-- Helper: `read_u32` succeeds whenever four bytes remain. -/
theorem read_u32_ok (bytes : List Nat) (p : Nat) (h : p + 4 ≤ bytes.length) :
    read_u32 ⟨bytes, p⟩ = .ok (leVal ((bytes.drop p).take 4), ⟨bytes, p + 4⟩) := by
  simp [read_u32, readBytes_ok bytes p 4 h, Except.map]

/-- Helper: `read_u64` succeeds whenever eight bytes remain. -/
theorem read_u64_ok (bytes : List Nat) (p : Nat) (h : p + 8 ≤ bytes.length) :
    read_u64 ⟨bytes, p⟩ = .ok (leVal ((bytes.drop p).take 8), ⟨bytes, p + 8⟩) := by
  simp [read_u64, readBytes_ok bytes p 8 h, Except.map]

/-- **C2 (amended).** `Superblock::read` performs no magic validation: on
every stream holding at least the 96 superblock bytes it succeeds — whatever
the first four bytes are — and stores their little-endian value in the
`magic` field unchecked. -/
theorem superblock_read_ignores_magic (bytes : List Nat)
    (h : 96 ≤ bytes.length) :
    Superblock.read ⟨bytes, 0⟩ = .ok
      ({ magic := leVal (bytes.take 4),
         inode_count := leVal ((bytes.drop 4).take 4),
         mod_time := leVal ((bytes.drop 8).take 4),
         block_size := leVal ((bytes.drop 12).take 4),
         frag_count := leVal ((bytes.drop 16).take 4),
         compressor := Compressor.ofU16 (leVal ((bytes.drop 20).take 2)),
         block_log := leVal ((bytes.drop 22).take 2),
         flags := superblockFlagsTruncate (leVal ((bytes.drop 24).take 2)),
         id_count := leVal ((bytes.drop 26).take 2),
         version_major := leVal ((bytes.drop 28).take 2),
         version_minor := leVal ((bytes.drop 30).take 2),
         root_inode := ⟨leVal ((bytes.drop 32).take 8)⟩,
         bytes_used := leVal ((bytes.drop 40).take 8),
         id_table := leVal ((bytes.drop 48).take 8),
         xattr_table := leVal ((bytes.drop 56).take 8),
         inode_table := leVal ((bytes.drop 64).take 8),
         dir_table := leVal ((bytes.drop 72).take 8),
         frag_table := leVal ((bytes.drop 80).take 8),
         export_table := leVal ((bytes.drop 88).take 8) }, ⟨bytes, 96⟩) := by
  have hrs : EntryReference.readS ⟨bytes, 32⟩ =
      .ok (⟨leVal ((bytes.drop 32).take 8)⟩, ⟨bytes, 40⟩) := by
    simp [EntryReference.readS, read_u64_ok bytes 32 (by omega), Except.map]
  have d0 : bytes.take 4 = (bytes.drop 0).take 4 := by simp
  rw [d0]
  simp only [Superblock.read, bind, Except.bind, Except.map, hrs,
    read_u32_ok bytes 0 (by omega), read_u32_ok bytes 4 (by omega),
    read_u32_ok bytes 8 (by omega), read_u32_ok bytes 12 (by omega),
    read_u32_ok bytes 16 (by omega), read_u16_ok bytes 20 (by omega),
    read_u16_ok bytes 22 (by omega), read_u16_ok bytes 24 (by omega),
    read_u16_ok bytes 26 (by omega), read_u16_ok bytes 28 (by omega),
    read_u16_ok bytes 30 (by omega),
    read_u64_ok bytes 40 (by omega), read_u64_ok bytes 48 (by omega),
    read_u64_ok bytes 56 (by omega), read_u64_ok bytes 64 (by omega),
    read_u64_ok bytes 72 (by omega), read_u64_ok bytes 80 (by omega),
    read_u64_ok bytes 88 (by omega)]
  rfl

/-- Witness for the amended C2 at a concrete 96-byte stream. -/
theorem superblock_read_ignores_magic_witness :
    96 ≤ (List.replicate 96 0).length ∧
    ∃ sb s1, Superblock.read ⟨List.replicate 96 0, 0⟩ = .ok (sb, s1) :=
  ⟨by simp, _, _, superblock_read_ignores_magic (List.replicate 96 0) (by simp)⟩

/-- **C2 (counterexample).** A 96-byte stream of zeros, whose first four bytes
do not decode to the magic value `0x73717368`, is not rejected:
`Superblock::read` succeeds (with `magic = 0` stored unchecked), so opening
such an image does not fail with an `invalid_data` error at the superblock. -/
theorem superblock_read_bad_magic_accepted :
    leVal ((List.replicate 96 0).take 4) ≠ MAGIC ∧
    (Superblock.read ⟨List.replicate 96 0, 0⟩).isOk = true := by
  exact ⟨by decide, by decide⟩

/-- **C1.** Evaluation of the sparse-block handling at the failing input
(one all-sparse block, `block_sizes = [0]`, gzip image): `from_inode` builds
a descriptor with `disk_len = 0` flagged *compressed* (`0 & 0x1000000 == 0`),
and `prepare_inner` then seeks the backing store to the block's disk offset
and wraps a `ZlibDecoder` whose compressed input is bounded to those **0**
on-disk bytes.  The backing store is touched (the seek is issued), and the
decoder is given no input from which to produce the `data_len = 131072` zero
bytes the claim requires. -/
theorem sparse_block_failing_input :
    from_inode (.ok []) sbGz sparseFileInode = .ok (Option.some sparseFDR) ∧
    sparseFDR.blocks = [{ disk_offset := 4096, disk_len := 0, data_offset := 0,
                          data_len := 131072, is_compressed := true }] ∧
    prepare_inner xzNone sparseFDR =
      .ok ((InnerDesc.gzip 4096 0 131072 0, [StoreOp.seekTo 4096]),
           { sparseFDR with inner := InnerDesc.gzip 4096 0 131072 0 }) ∧
    ([StoreOp.seekTo 4096] : List StoreOp) ≠ [] := by
  refine ⟨by decide, by decide, by decide, by decide⟩

/-- **C3 (counterexample).** Opening a directory inode as a file panics
(`from_inode` returns `Ok(None)` and `open_file_inode` unwraps it), and
reading a file inode as a directory yields an `InvalidInput` error — not the
`unsupported` error the claim states, and not panic-free. -/
theorem open_nonfile_cex :
    open_file_inode (.ok []) sbGz dirInodeEx = .panic ∧
    read_for_inode ⟨[], 0⟩ sbGz sparseFileInode = .err .invalidInput ∧
    ErrKind.invalidInput ≠ ErrKind.unsupported := by
  refine ⟨by decide, by decide, by decide⟩

/-- **C3 (amended).** For every inode whose decoded extended info is not a
basic file — extended file inodes included, since they decode to empty
info — `open_file_inode` panics on the `unwrap` of `Ok(None)` rather than
returning an error; and `DirTable::read_for_inode` rejects every
non-directory inode with an `invalid_input` error ("Inode is not a
directory"), not `unsupported`. -/
theorem open_nonfile_panics_readdir_nondir_invalid_input :
    (∀ (flt : Except ErrKind (List FragmentEntry)) (sb : Superblock) (inode : Inode),
      (∀ i, inode.extended_info ≠ InodeExtendedInfo.basicFile i) →
      open_file_inode flt sb inode = .panic) ∧
    (∀ (s : RStream) (sb : Superblock) (inode : Inode),
      (∀ d, inode.extended_info ≠ InodeExtendedInfo.basicDir d) →
      (∀ d, inode.extended_info ≠ InodeExtendedInfo.extDir d) →
      read_for_inode s sb inode = .err .invalidInput) := by
  constructor
  · intro flt sb inode h
    unfold open_file_inode from_inode
    cases hinfo : inode.extended_info with
    | basicFile i => exact absurd hinfo (h i)
    | _ => rfl
  · intro s sb inode hbd hed
    unfold read_for_inode
    cases hinfo : inode.extended_info with
    | basicDir d => exact absurd hinfo (hbd d)
    | extDir d => exact absurd hinfo (hed d)
    | _ => rfl

/-- Witness for the amended C3 at the concrete fixtures. -/
theorem open_nonfile_panics_witness :
    open_file_inode (.ok []) sbGz dirInodeEx = .panic ∧
    read_for_inode ⟨[], 0⟩ sbGz smallFileInode = .err .invalidInput :=
  ⟨open_nonfile_panics_readdir_nondir_invalid_input.1 (.ok []) sbGz dirInodeEx
      (by intro i h; simp [dirInodeEx] at h),
   open_nonfile_panics_readdir_nondir_invalid_input.2 ⟨[], 0⟩ sbGz smallFileInode
      (by intro d h; simp [smallFileInode] at h)
      (by intro d h; simp [smallFileInode] at h)⟩

/-- **C4.** Evaluation at the failing input: open the two-byte file
`smallFileInode`, read one byte (which opens the block's decoder and leaves
the reader in the reachable state `smallFDR1` with `pos = 1`), then seek to
`file_size = 2`.  The seek reaches
`self.calc_block_and_offset(target_pos).unwrap()` with `target_pos ≥
file_size`, for which `calc_block_and_offset` returns `None`, so the seek
panics instead of returning the new position. -/
theorem seek_past_end_panics_failing_input :
    from_inode (.ok []) sbGz smallFileInode = .ok (Option.some smallFDR0) ∧
    FileDataReader.read xzNone innerReadOne smallFDR0 2 = .ok (1, smallFDR1) ∧
    calc_block_and_offset smallFDR1 2 = .ok Option.none ∧
    FileDataReader.seek xzNone skipOk smallFDR1 (.start 2) = .panic := by
  refine ⟨by decide, by decide, by decide, by decide⟩

/-- **C5 (counterexample).** In the fixture archive, resolving the component
sequence `[/ , "a", ..]` does not pop back to the root: the `..` component
falls into the `_` match arm and the walk fails with an `invalid_data`
error.  Likewise a (leading) `.` component is not ignored but rejected.  The
claim's popping/ignoring behavior (which would yield `Ok(root)`) does not
hold, and the error kind is `invalid_data`, not an input error. -/
theorem inode_from_path_dotdot_cex :
    inode_from_path fsEx [.rootDir, .normal [97], .parentDir] = .err .invalidData ∧
    inode_from_path fsEx [.curDir] = .err .invalidData ∧
    POut.err ErrKind.invalidData ≠ POut.ok rootInodeEx ∧
    ErrKind.invalidData ≠ ErrKind.invalidInput := by
  refine ⟨by decide, by decide, by decide, by decide⟩

/-- Helper: the `find` over directory entries equals a plain byte-equality
`find?` when every entry name is valid UTF-8 (otherwise `file_name` panics
while scanning). -/
theorem findEntryByName_eq_find (n : List Nat) :
    ∀ entries : List DirEntryView, (∀ e ∈ entries, validUtf8 e.name = true) →
      findEntryByName n entries =
        .ok (entries.find? (fun e => decide (n = e.name))) := by
  intro entries
  induction entries with
  | nil => intro _; rfl
  | cons e rest ih =>
    intro h
    have he : validUtf8 e.name = true := h e (List.mem_cons_self e rest)
    by_cases hn : n = e.name
    · simp [findEntryByName, he, hn, List.find?]
    · have hd : (decide (n = e.name)) = false := decide_eq_false hn
      simp only [findEntryByName, he, if_true, if_neg hn, List.find?, hd]
      exact ih (fun x hx => h x (List.mem_cons_of_mem e hx))

/-- Helper: `stepC5` passes earlier errors through a fold unchanged. -/
theorem foldl_stepC5_err (fs : FsOracle) (e : ErrKind) :
    ∀ comps : List PathComponent, comps.foldl (stepC5 fs) (.err e) = .err e := by
  intro comps
  induction comps with
  | nil => rfl
  | cons c rest ih => simpa [stepC5] using ih

/-- Helper: the component loop of `inode_from_path` agrees with the
claim-side fold from any starting inode, when directory-entry names are
valid UTF-8. -/
theorem inode_from_path_go_eq_foldl (fs : FsOracle)
    (hnames : ∀ inode entries, fs.readDirEntries inode = .ok entries →
      ∀ e ∈ entries, validUtf8 e.name = true) :
    ∀ (comps : List PathComponent) (inode : Inode),
      inode_from_path_go fs inode comps = comps.foldl (stepC5 fs) (.ok inode) := by
  intro comps
  induction comps with
  | nil => intro inode; rfl
  | cons c rest ih =>
    intro inode
    cases c with
    | rootDir =>
      cases hr : fs.rootI with
      | error e =>
        simp [inode_from_path_go, hr, List.foldl_cons, stepC5, POut.liftE,
          foldl_stepC5_err]
      | ok i =>
        simp only [inode_from_path_go, hr, List.foldl_cons, stepC5, POut.liftE]
        exact ih i
    | normal n =>
      cases hd : fs.readDirEntries inode with
      | error e =>
        simp [inode_from_path_go, hd, List.foldl_cons, stepC5, foldl_stepC5_err]
      | ok entries =>
        have hfind := findEntryByName_eq_find n entries (hnames inode entries hd)
        cases hopt : entries.find? (fun e => decide (n = e.name)) with
        | none =>
          rw [hopt] at hfind
          simp [inode_from_path_go, hd, hfind, List.foldl_cons, stepC5, hopt,
            foldl_stepC5_err]
        | some e =>
          rw [hopt] at hfind
          cases hia : fs.inodeAt e.inode_ref with
          | error e2 =>
            simp [inode_from_path_go, hd, hfind, List.foldl_cons, stepC5, hopt,
              hia, foldl_stepC5_err]
          | ok i =>
            simp only [inode_from_path_go, hd, hfind, List.foldl_cons, stepC5,
              hopt, hia]
            exact ih i
    | winDrive =>
      simp [inode_from_path_go, List.foldl_cons, stepC5, foldl_stepC5_err]
    | curDir =>
      simp [inode_from_path_go, List.foldl_cons, stepC5, foldl_stepC5_err]
    | parentDir =>
      simp [inode_from_path_go, List.foldl_cons, stepC5, foldl_stepC5_err]

/-- **C5 (amended).** `inode_from_path` resolves a component sequence by
starting at the root inode, resetting to root on a root component, matching
each normal component against the directory entries by byte-wise name
equality (`not_found` when a component is missing or its inode cannot be
read) — and returning an `invalid_data` error for `..`, `.` and every other
non-normal component shape: it coincides with the claim-side resolver
`resolveSpecC5` on archives whose directory-entry names are valid UTF-8. -/
theorem inode_from_path_eq_resolveSpec (fs : FsOracle)
    (hnames : ∀ inode entries, fs.readDirEntries inode = .ok entries →
      ∀ e ∈ entries, validUtf8 e.name = true) :
    ∀ comps : List PathComponent,
      inode_from_path fs comps = resolveSpecC5 fs comps := by
  intro comps
  unfold inode_from_path resolveSpecC5
  cases hr : fs.rootI with
  | error e => simp [POut.liftE, foldl_stepC5_err]
  | ok root => simpa [POut.liftE] using inode_from_path_go_eq_foldl fs hnames comps root

/-- Witness for the amended C5 at the fixture archive. -/
theorem inode_from_path_eq_resolveSpec_witness :
    inode_from_path fsEx [.rootDir, .normal [97]] =
      resolveSpecC5 fsEx [.rootDir, .normal [97]] :=
  inode_from_path_eq_resolveSpec fsEx
    (by
      intro inode entries h e he
      simp only [fsEx] at h
      split at h
      · cases h
        simp only [List.mem_singleton] at he
        subst he
        decide
      · cases h
        simp at he)
    [.rootDir, .normal [97]]

/-- **C7.** Evaluation at the failing input: client 2 (stored position 5,
not active) reads while the device rejects the activation seek.  The source
sets `sr.active_id = self.id` *before* issuing the seek, so the failed
operation leaves client 2 recorded as active; the immediately following read
by client 2 therefore skips the activation seek and reads from the stale
stream position 0, returning byte `10` instead of the byte `15` at the
client's stored position 5. -/
theorem readermux_failed_activation_failing_input :
    (ReaderClient.read faultyOps client2 sr0 1).1 = POut.err .otherErr ∧
    (ReaderClient.read faultyOps client2 sr0 1).2.2.active_id = 2 ∧
    (ReaderClient.read faultyOps
        (ReaderClient.read faultyOps client2 sr0 1).2.1
        (ReaderClient.read faultyOps client2 sr0 1).2.2 1).1 = POut.ok [10] ∧
    c7bytes.get? 5 = Option.some 15 ∧ (10 : Nat) ≠ 15 := by
  refine ⟨rfl, rfl, rfl, rfl, by decide⟩

/-- Helper: over any request sequence, a block address is recorded in the
ghost creation log at most once, provided it starts with the cache invariant
(present-or-never-created). -/
theorem runFragReqs_count_le {β : Type} (create : Nat → Except ErrKind β)
    (addr : Nat) :
    ∀ (reqs : List Nat) (st : FragmentBlockCache β),
      st.creations.count addr ≤ 1 →
      (lookupA st.block_readers addr = Option.none → st.creations.count addr = 0) →
      ((runFragReqs create st reqs).creations.count addr) ≤ 1 := by
  intro reqs
  induction reqs with
  | nil => intro st h1 _; exact h1
  | cons a rest ih =>
    intro st h1 h2
    cases hl : lookupA st.block_readers a with
    | some br =>
      simp only [runFragReqs, get_or_create_block_reader, hl]
      exact ih st h1 h2
    | none =>
      cases hc : create a with
      | error e =>
        simp only [runFragReqs, get_or_create_block_reader, hl, hc]
        exact ih st h1 h2
      | ok br =>
        simp only [runFragReqs, get_or_create_block_reader, hl, hc]
        apply ih
        · rw [List.count_append]
          by_cases ha : a = addr
          · subst ha
            have h0 : st.creations.count a = 0 := h2 hl
            simp [h0]
          · have h0 : List.count addr [a] = 0 := by
              simp [List.count_cons, ha]
            omega
        · intro hnone
          by_cases ha : a = addr
          · exfalso
            subst ha
            simp [lookupA] at hnone
          · simp only [lookupA, if_neg (fun h => ha h)] at hnone
            rw [List.count_append, h2 hnone]
            simp [List.count_cons, ha]

/-- **C9.** The fragment block cache constructs (and hence decompresses) a
block reader at most once per block address: a request for an address whose
reader is already cached is served from the cache and leaves the cache
unchanged (first conjunct), and over any sequence of fragment-reader
requests starting from the empty cache, a successful `create_block_reader`
is logged at most once per address (second conjunct).  A failed construction
inserts nothing, so it can be retried — but never after a success. -/
theorem frag_cache_block_reader_at_most_once :
    (∀ (β : Type) (create : Nat → Except ErrKind β)
       (st : FragmentBlockCache β) (addr : Nat) (br : β)
       (st1 : FragmentBlockCache β),
       get_or_create_block_reader create st addr = .ok (br, st1) →
       get_or_create_block_reader create st1 addr = .ok (br, st1)) ∧
    (∀ (β : Type) (create : Nat → Except ErrKind β) (reqs : List Nat)
       (addr : Nat),
       ((runFragReqs create ⟨[], []⟩ reqs).creations.count addr) ≤ 1) := by
  constructor
  · intro β create st addr br st1 h
    unfold get_or_create_block_reader at h ⊢
    cases hl : lookupA st.block_readers addr with
    | some br0 =>
      rw [hl] at h
      cases h
      rw [hl]
    | none =>
      rw [hl] at h
      cases hc : create addr with
      | error e => rw [hc] at h; cases h
      | ok br2 =>
        rw [hc] at h
        cases h
        simp [lookupA]
  · intro β create reqs addr
    apply runFragReqs_count_le
    · simp
    · intro _; simp

/-- Witness for C9: a second request for block address 7 is served from the
cache unchanged, and after the request sequence `[7, 7, 8]` address 7 was
constructed exactly once. -/
theorem frag_cache_block_reader_at_most_once_witness :
    get_or_create_block_reader (fun a => Except.ok a)
        ⟨[(7, 7)], [7]⟩ 7 = .ok (7, ⟨[(7, 7)], [7]⟩) ∧
    ((runFragReqs (fun a => Except.ok a)
        (⟨[], []⟩ : FragmentBlockCache Nat) [7, 7, 8]).creations.count 7) ≤ 1 :=
  ⟨frag_cache_block_reader_at_most_once.1 Nat (fun a => Except.ok a)
      ⟨[], []⟩ 7 7 ⟨[(7, 7)], [7]⟩ rfl,
   frag_cache_block_reader_at_most_once.2 Nat (fun a => Except.ok a) [7, 7, 8] 7⟩

/-- **C10.** For every directory entry whose stored name bytes are valid
UTF-8 and contain no NUL byte, the load-time `CString::new(..).unwrap`
succeeds with exactly those bytes and `DirEntry::file_name` is panic-free,
returning exactly the stored name bytes decoded as a string. -/
theorem file_name_total_on_valid_names (e : SqDirEntry)
    (hv : validUtf8 e.inner.name = true)
    (hn : e.inner.name.contains 0 = false) :
    cstring_new e.inner.name = Option.some e.inner.name ∧
    SqDirEntry.file_name e = .ok e.inner.name := by
  have hm : (0 : Nat) ∉ e.inner.name := by simpa using hn
  constructor
  · simp [cstring_new, hm]
  · simp [SqDirEntry.file_name, hv]

/-- Witness for C10 at the concrete name `"hi"` (bytes `[104, 105]`). -/
theorem file_name_total_witness :
    cstring_new (SqDirEntry.mk ⟨0, 0, .basicFile, [104, 105]⟩
        (EntryReference.new 0 0) 2).inner.name =
      Option.some [104, 105] ∧
    SqDirEntry.file_name (SqDirEntry.mk ⟨0, 0, .basicFile, [104, 105]⟩
        (EntryReference.new 0 0) 2) = .ok [104, 105] :=
  file_name_total_on_valid_names
    (SqDirEntry.mk ⟨0, 0, .basicFile, [104, 105]⟩ (EntryReference.new 0 0) 2)
    (by decide) (by decide)

end Squinter
